import Mathlib

/-!
Verification of the wasmi core interpreter against its specification.

The definitions below are a shallow embedding of the interpreter in
src/runner.rs together with the flat instruction set of src/isa.rs.
Machine integers are carried as raw bit patterns (`Nat`), with explicit
reductions modulo powers of two where the Rust code wraps.  Fallible
operations return `Except`; a Rust `expect`/`assert!` failure (impossible
on validated code) is modelled by the distinguished error `expectFail`,
while Wasm traps are modelled by `trap`.
-/

namespace Wasmi

/-- Value types of the four Wasm MVP value classes (types.rs). -/
inductive ValueType where
  | i32
  | i64
  | f32
  | f64
deriving DecidableEq, Repr

/-- Tagged runtime value (value.rs), numeric payloads carried as raw bit
patterns: the `I32` of bits `b` denotes the 32-bit pattern `b % 2^32`, and
similarly for the other classes. -/
inductive RuntimeValue where
  | I32 (bits : Nat)
  | I64 (bits : Nat)
  | F32 (bits : Nat)
  | F64 (bits : Nat)
deriving DecidableEq, Repr

/-- RuntimeValue::value_type. -/
def RuntimeValue.value_type : RuntimeValue → ValueType
  | .I32 _ => .i32
  | .I64 _ => .i64
  | .F32 _ => .f32
  | .F64 _ => .f64

/-- Trap kinds of the error taxonomy (TrapKind in the source, spec section 7). -/
inductive TrapKind where
  | Unreachable
  | MemoryAccessOutOfBounds
  | TableAccessOutOfBounds
  | ElemUninitialized
  | DivisionByZero
  | InvalidConversionToInt
  | StackOverflow
  | UnexpectedSignature
deriving DecidableEq, Repr

/-- Failure of an interpreter step: either a Rust panic path (an
`expect`/`assert!` that validation makes unreachable) or a Wasm trap. -/
inductive StepErr where
  | expectFail
  | trap (k : TrapKind)
deriving DecidableEq, Repr

/-- Modelled from the spec: `StackWithLimit` (common/stack.rs) is not under
src/.  Spec section 3, Value stack: an ordered sequence of runtime values with
a fixed capacity; overflow on push traps `StackOverflow`.  The head of `vals`
is the top of the stack. -/
structure ValueStack where
  vals : List RuntimeValue
  limit : Nat
deriving DecidableEq, Repr

/-- ValueStack::with_limit. -/
def ValueStack.with_limit (limit : Nat) : ValueStack := ⟨[], limit⟩

/-- ValueStack::len. -/
def ValueStack.len (s : ValueStack) : Nat := s.vals.length

/-- ValueStack::push, trapping with `StackOverflow` when the stack is full. -/
def ValueStack.push (s : ValueStack) (v : RuntimeValue) : Except StepErr ValueStack :=
  if s.vals.length < s.limit then .ok ⟨v :: s.vals, s.limit⟩
  else .error (.trap .StackOverflow)

/-- ValueStack::pop; the source `expect`s a non-empty stack. -/
def ValueStack.pop (s : ValueStack) : Except StepErr (RuntimeValue × ValueStack) :=
  match s.vals with
  | [] => .error .expectFail
  | v :: rest => .ok (v, ⟨rest, s.limit⟩)

/-- ValueStack::top; the source `expect`s a non-empty stack. -/
def ValueStack.top (s : ValueStack) : Except StepErr RuntimeValue :=
  match s.vals with
  | [] => .error .expectFail
  | v :: _ => .ok v

/-- ValueStack::resize, filling with `I32(0)` when growing (runner.rs:1202). -/
def ValueStack.resize (s : ValueStack) (new_len : Nat) : ValueStack :=
  if new_len ≤ s.vals.length then ⟨s.vals.drop (s.vals.length - new_len), s.limit⟩
  else ⟨List.replicate (new_len - s.vals.length) (.I32 0) ++ s.vals, s.limit⟩

/-- Projection used by `pop_as::<i32>` and `pop_as::<u32>`: both read the
`I32` variant (try_into, panicking on a type mismatch). -/
def fromI32 : RuntimeValue → Option Nat
  | .I32 b => some b
  | _ => none

/-- Projection used by `pop_as::<i64>` and `pop_as::<u64>`. -/
def fromI64 : RuntimeValue → Option Nat
  | .I64 b => some b
  | _ => none

/-- Projection used by `pop_as::<F32>`. -/
def fromF32 : RuntimeValue → Option Nat
  | .F32 b => some b
  | _ => none

/-- Projection used by `pop_as::<F64>`. -/
def fromF64 : RuntimeValue → Option Nat
  | .F64 b => some b
  | _ => none

/-- ValueStack::pop_as: pop and convert, panicking (`expectFail`) when the
top has the wrong type. -/
def ValueStack.pop_as (s : ValueStack) (fromVal : RuntimeValue → Option α) :
    Except StepErr (α × ValueStack) :=
  match s.pop with
  | .error e => .error e
  | .ok (v, s2) =>
    match fromVal v with
    | none => .error .expectFail
    | some a => .ok (a, s2)

/-- ValueStack::pop_pair_as: the right operand is popped first, then the left. -/
def ValueStack.pop_pair_as (s : ValueStack) (fromVal : RuntimeValue → Option α) :
    Except StepErr ((α × α) × ValueStack) :=
  match s.pop_as fromVal with
  | .error e => .error e
  | .ok (right, s2) =>
    match s2.pop_as fromVal with
    | .error e => .error e
    | .ok (left, s3) => .ok ((left, right), s3)

/-- Branch target of the flat ISA (isa.rs `Target`), as the runner consumes
it: a destination program counter plus the drop count and the keep flag
(`keep ≤ 1`, `1` meaning one value is preserved). -/
structure Target where
  dst_pc : Nat
  drop : Nat
  keep : Nat
deriving DecidableEq, Repr

/-- DropKeep carried by `Return` (isa.rs). -/
structure DropKeep where
  drop : Nat
  keep : Nat
deriving DecidableEq, Repr

/-- Interpreter::run_br_table (runner.rs:386): pop the i32 index; take
`table[index]` when `index < table.len() - 1`, else the last entry. -/
def run_br_table (table : List Target) (s : ValueStack) :
    Except StepErr (Target × ValueStack) :=
  match s.pop_as fromI32 with
  | .error e => .error e
  | .ok (index, s2) =>
    let dst :=
      if index < table.length - 1 then table.getD index ⟨0, 0, 0⟩
      else table.getD (table.length - 1) ⟨0, 0, 0⟩
    .ok (dst, s2)

/-- effective_address (runner.rs:1111): `offset.checked_add(address)` on u32,
trapping with `MemoryAccessOutOfBounds` on overflow.  The arguments denote
32-bit values (callers pass bit patterns below `2^32`). -/
def effective_address (address offset : Nat) : Except StepErr Nat :=
  if offset + address < 2 ^ 32 then .ok (offset + address)
  else .error (.trap .MemoryAccessOutOfBounds)

/-- Modelled from the spec: linear memory (spec section 3; memory_units /
MemoryInstance are not under src/) as a byte array; `get` yields the
requested range or fails when it runs past the end. -/
structure Memory where
  bytes : List Nat
deriving DecidableEq, Repr

/-- MemoryInstance::get, failing when the range is out of bounds. -/
def Memory.get (m : Memory) (addr size : Nat) : Except Unit (List Nat) :=
  if addr + size ≤ m.bytes.length then .ok ((m.bytes.drop addr).take size)
  else .error ()

/-- MemoryInstance::set, failing when the range is out of bounds. -/
def Memory.set (m : Memory) (addr : Nat) (data : List Nat) : Except Unit Memory :=
  if addr + data.length ≤ m.bytes.length then
    .ok ⟨m.bytes.take addr ++ data ++ m.bytes.drop (addr + data.length)⟩
  else .error ()

/-- from_little_endian: decode a little-endian byte list into a bit pattern. -/
def from_little_endian (bytes : List Nat) : Nat :=
  bytes.foldr (fun b acc => acc * 256 + b) 0

/-- into_little_endian: encode the low `size` bytes of a bit pattern. -/
def into_little_endian (v size : Nat) : List Nat :=
  (List.range size).map (fun i => (v >>> (8 * i)) &&& 255)

/-- Interpreter::run_load (runner.rs:520): pop the base address, form the
effective address with u32 overflow checking, read `size` bytes from the
default memory (out of bounds traps `MemoryAccessOutOfBounds`), push the
decoded value. -/
def run_load (mkVal : Nat → RuntimeValue) (size : Nat) (m : Memory) (offset : Nat)
    (s : ValueStack) : Except StepErr ValueStack :=
  match s.pop_as fromI32 with
  | .error e => .error e
  | .ok (raw_address, s2) =>
    match effective_address offset raw_address with
    | .error e => .error e
    | .ok address =>
      match m.get address size with
      | .error _ => .error (.trap .MemoryAccessOutOfBounds)
      | .ok b => s2.push (mkVal (from_little_endian b))

/-- Interpreter::run_store (runner.rs:566): pop the value, pop the base
address, form the effective address with u32 overflow checking, write the
bytes (out of bounds traps `MemoryAccessOutOfBounds`). -/
def run_store (fromVal : RuntimeValue → Option Nat) (size : Nat) (m : Memory)
    (offset : Nat) (s : ValueStack) : Except StepErr (Memory × ValueStack) :=
  match s.pop_as fromVal with
  | .error e => .error e
  | .ok (stack_value, s2) =>
    match s2.pop_as fromI32 with
    | .error e => .error e
    | .ok (raw_address, s3) =>
      match effective_address offset raw_address with
      | .error e => .error e
      | .ok address =>
        match m.set address (into_little_endian stack_value size) with
        | .error _ => .error (.trap .MemoryAccessOutOfBounds)
        | .ok m2 => .ok (m2, s3)

/-- C2: for every executed `BrTable` with a non-empty target table, after
popping the i32 index the selected target is `table[min(index, len - 1)]`,
and the selected position is the default (last) one iff `index ≥ len - 1`. -/
theorem br_table_selects_min_index (table : List Target) (index : Nat)
    (rest : List RuntimeValue) (lim : Nat) (hne : table ≠ []) :
    run_br_table table ⟨.I32 index :: rest, lim⟩ =
      .ok (table.getD (min index (table.length - 1)) ⟨0, 0, 0⟩, ⟨rest, lim⟩) ∧
    (min index (table.length - 1) = table.length - 1 ↔ table.length - 1 ≤ index) := by
  have hlen : 1 ≤ table.length := List.length_pos.mpr hne
  constructor
  · simp only [run_br_table, ValueStack.pop_as, ValueStack.pop, fromI32]
    by_cases h : index < table.length - 1
    · have hmin : min index (table.length - 1) = index := by omega
      simp [h, hmin]
    · have hmin : min index (table.length - 1) = table.length - 1 := by omega
      simp [h, hmin]
  · constructor
    · intro h; omega
    · intro h; omega

/-- Closed witness for C2 at a concrete three-entry table and index 7. -/
theorem br_table_selects_min_index_witness :
    run_br_table [⟨5, 0, 0⟩, ⟨6, 1, 0⟩, ⟨7, 2, 1⟩] ⟨[.I32 7], 10⟩ =
      .ok (([⟨5, 0, 0⟩, ⟨6, 1, 0⟩, (⟨7, 2, 1⟩ : Target)]).getD (min 7 2) ⟨0, 0, 0⟩, ⟨[], 10⟩) ∧
    (min 7 (3 - 1) = 3 - 1 ↔ 3 - 1 ≤ 7) := by
  have h := br_table_selects_min_index [⟨5, 0, 0⟩, ⟨6, 1, 0⟩, ⟨7, 2, 1⟩] 7 [] 10 (by decide)
  simpa using h

/-- C7: for a memory load or store with static offset, the effective address
is the u32 sum of the popped base and the offset; overflowing u32 traps with
`MemoryAccessOutOfBounds`, and otherwise the access proceeds at exactly
`base + offset`. -/
theorem effective_address_u32_sum (base offset : Nat)
    (hbase : base < 2 ^ 32) (hoff : offset < 2 ^ 32) :
    (effective_address offset base =
       if base + offset < 2 ^ 32 then .ok (base + offset)
       else .error (.trap .MemoryAccessOutOfBounds)) ∧
    (∀ (mkVal : Nat → RuntimeValue) (size : Nat) (m : Memory)
       (rest : List RuntimeValue) (lim : Nat),
       run_load mkVal size m offset ⟨.I32 base :: rest, lim⟩ =
         if base + offset < 2 ^ 32 then
           match m.get (base + offset) size with
           | .error _ => .error (.trap .MemoryAccessOutOfBounds)
           | .ok b => ValueStack.push ⟨rest, lim⟩ (mkVal (from_little_endian b))
         else .error (.trap .MemoryAccessOutOfBounds)) ∧
    (∀ (v size : Nat) (m : Memory) (rest : List RuntimeValue) (lim : Nat),
       run_store fromI32 size m offset ⟨.I32 v :: .I32 base :: rest, lim⟩ =
         if base + offset < 2 ^ 32 then
           match m.set (base + offset) (into_little_endian v size) with
           | .error _ => .error (.trap .MemoryAccessOutOfBounds)
           | .ok m2 => .ok (m2, (⟨rest, lim⟩ : ValueStack))
         else .error (.trap .MemoryAccessOutOfBounds)) := by
  have hcomm : base + offset = offset + base := Nat.add_comm base offset
  refine ⟨?_, ?_, ?_⟩
  · simp only [effective_address, hcomm]
  · intro mkVal size m rest lim
    simp only [run_load, ValueStack.pop_as, ValueStack.pop, fromI32,
      effective_address, hcomm]
    by_cases h : offset + base < 2 ^ 32
    · rw [if_pos h, if_pos h]
    · rw [if_neg h, if_neg h]
  · intro v size m rest lim
    simp only [run_store, ValueStack.pop_as, ValueStack.pop, fromI32,
      effective_address, hcomm]
    by_cases h : offset + base < 2 ^ 32
    · rw [if_pos h, if_pos h]
    · rw [if_neg h, if_neg h]

/-- Closed witness for C7: load at base 4, offset 2 from an 8-byte memory
is out of bounds without overflowing, store at base 1, offset 2 succeeds. -/
theorem effective_address_u32_sum_witness :
    effective_address 2 4 = .ok 6 ∧
    run_load RuntimeValue.I32 4 ⟨[0, 1, 2, 3, 4, 5, 6, 7]⟩ 2 ⟨[.I32 4], 8⟩ =
      .error (.trap .MemoryAccessOutOfBounds) ∧
    run_store fromI32 1 ⟨[0, 1, 2, 3, 4, 5, 6, 7]⟩ 2 ⟨[.I32 9, .I32 1], 8⟩ =
      .ok (⟨[0, 1, 2, 9, 4, 5, 6, 7]⟩, ⟨[], 8⟩) := by
  have h := effective_address_u32_sum 4 2 (by decide) (by decide)
  have h2 := effective_address_u32_sum 1 2 (by decide) (by decide)
  refine ⟨?_, ?_, ?_⟩
  · have := h.1
    simpa using this
  · have := h.2.1 RuntimeValue.I32 4 ⟨[0, 1, 2, 3, 4, 5, 6, 7]⟩ [] 8
    rw [this]
    rfl
  · have := h2.2.2 9 1 ⟨[0, 1, 2, 3, 4, 5, 6, 7]⟩ [] 8
    rw [this]
    rfl

/-- Reduction of a bit pattern to 32 bits (u32 wrapping). -/
def wrap32 (n : Nat) : Nat := n % 2 ^ 32

/-- Reduction of a bit pattern to 64 bits (u64 wrapping). -/
def wrap64 (n : Nat) : Nat := n % 2 ^ 64

/-- Signed reading of a 32-bit pattern (transmute u32 to i32). -/
def toSigned32 (b : Nat) : Int :=
  if b % 2 ^ 32 < 2 ^ 31 then ((b % 2 ^ 32 : Nat) : Int)
  else ((b % 2 ^ 32 : Nat) : Int) - 2 ^ 32

/-- Signed reading of a 64-bit pattern (transmute u64 to i64). -/
def toSigned64 (b : Nat) : Int :=
  if b % 2 ^ 64 < 2 ^ 63 then ((b % 2 ^ 64 : Nat) : Int)
  else ((b % 2 ^ 64 : Nat) : Int) - 2 ^ 64

/-- Bit pattern of an integer reduced to 32 bits (transmute i32 to u32). -/
def toUnsigned32 (i : Int) : Nat := (i % (2 ^ 32 : Int)).toNat

/-- Bit pattern of an integer reduced to 64 bits (transmute i64 to u64). -/
def toUnsigned64 (i : Int) : Nat := (i % (2 ^ 64 : Int)).toNat

/-- Interpreter::run_shl at i32 (runner.rs:837, mask 0x1F): pop the pair,
shift left by `right & 0x1F`, push the wrapped 32-bit result. -/
def run_shl32 (s : ValueStack) : Except StepErr ValueStack :=
  match s.pop_pair_as fromI32 with
  | .error e => .error e
  | .ok ((left, right), s2) => s2.push (.I32 (wrap32 (left <<< (right &&& 31))))

/-- Interpreter::run_shr at (i32, i32) (runner.rs:848, mask 0x1F): signed
(arithmetic) right shift — floor division of the signed reading by the
power of two — of the shift amount masked to 5 bits. -/
def run_shr_s32 (s : ValueStack) : Except StepErr ValueStack :=
  match s.pop_pair_as fromI32 with
  | .error e => .error e
  | .ok ((left, right), s2) =>
    s2.push (.I32 (toUnsigned32 (Int.fdiv (toSigned32 left) (2 ^ (right &&& 31)))))

/-- Interpreter::run_shr at (i32, u32) (runner.rs:848, mask 0x1F): logical
right shift of the 32-bit pattern by the masked amount. -/
def run_shr_u32 (s : ValueStack) : Except StepErr ValueStack :=
  match s.pop_pair_as fromI32 with
  | .error e => .error e
  | .ok ((left, right), s2) => s2.push (.I32 (wrap32 left >>> (right &&& 31)))

/-- Interpreter::run_shl at i64 (runner.rs:294, mask 0x3F). -/
def run_shl64 (s : ValueStack) : Except StepErr ValueStack :=
  match s.pop_pair_as fromI64 with
  | .error e => .error e
  | .ok ((left, right), s2) => s2.push (.I64 (wrap64 (left <<< (right &&& 63))))

/-- Interpreter::run_shr at (i64, i64) (runner.rs:295, mask 0x3F). -/
def run_shr_s64 (s : ValueStack) : Except StepErr ValueStack :=
  match s.pop_pair_as fromI64 with
  | .error e => .error e
  | .ok ((left, right), s2) =>
    s2.push (.I64 (toUnsigned64 (Int.fdiv (toSigned64 left) (2 ^ (right &&& 63)))))

/-- Interpreter::run_shr at (i64, u64) (runner.rs:296, mask 0x3F). -/
def run_shr_u64 (s : ValueStack) : Except StepErr ValueStack :=
  match s.pop_pair_as fromI64 with
  | .error e => .error e
  | .ok ((left, right), s2) => s2.push (.I64 (wrap64 left >>> (right &&& 63)))

theorem and_mask_31_idem (k : Nat) : (k &&& 31) &&& 31 = k &&& 31 := by
  have h1 := Nat.and_pow_two_sub_one_eq_mod k 5
  have h2 := Nat.and_pow_two_sub_one_eq_mod (k % 32) 5
  norm_num at h1 h2
  rw [h1, h2]

theorem and_mask_63_idem (k : Nat) : (k &&& 63) &&& 63 = k &&& 63 := by
  have h1 := Nat.and_pow_two_sub_one_eq_mod k 6
  have h2 := Nat.and_pow_two_sub_one_eq_mod (k % 64) 6
  norm_num at h1 h2
  rw [h1, h2]

/-- C9: shift instructions mask the shift amount: executing any of `Shl`,
`ShrS`, `ShrU` on operands `(x, k)` yields the same outcome as executing it
on `(x, k & 31)` for the 32-bit instructions and `(x, k & 63)` for the
64-bit ones. -/
theorem shift_amount_masked :
    (∀ (x k : Nat) (rest : List RuntimeValue) (lim : Nat),
       run_shl32 ⟨.I32 k :: .I32 x :: rest, lim⟩ =
       run_shl32 ⟨.I32 (k &&& 31) :: .I32 x :: rest, lim⟩) ∧
    (∀ (x k : Nat) (rest : List RuntimeValue) (lim : Nat),
       run_shr_s32 ⟨.I32 k :: .I32 x :: rest, lim⟩ =
       run_shr_s32 ⟨.I32 (k &&& 31) :: .I32 x :: rest, lim⟩) ∧
    (∀ (x k : Nat) (rest : List RuntimeValue) (lim : Nat),
       run_shr_u32 ⟨.I32 k :: .I32 x :: rest, lim⟩ =
       run_shr_u32 ⟨.I32 (k &&& 31) :: .I32 x :: rest, lim⟩) ∧
    (∀ (x k : Nat) (rest : List RuntimeValue) (lim : Nat),
       run_shl64 ⟨.I64 k :: .I64 x :: rest, lim⟩ =
       run_shl64 ⟨.I64 (k &&& 63) :: .I64 x :: rest, lim⟩) ∧
    (∀ (x k : Nat) (rest : List RuntimeValue) (lim : Nat),
       run_shr_s64 ⟨.I64 k :: .I64 x :: rest, lim⟩ =
       run_shr_s64 ⟨.I64 (k &&& 63) :: .I64 x :: rest, lim⟩) ∧
    (∀ (x k : Nat) (rest : List RuntimeValue) (lim : Nat),
       run_shr_u64 ⟨.I64 k :: .I64 x :: rest, lim⟩ =
       run_shr_u64 ⟨.I64 (k &&& 63) :: .I64 x :: rest, lim⟩) := by
  refine ⟨?_, ?_, ?_, ?_, ?_, ?_⟩ <;> intro x k rest lim <;>
    simp only [run_shl32, run_shr_s32, run_shr_u32, run_shl64, run_shr_s64, run_shr_u64,
      ValueStack.pop_pair_as, ValueStack.pop_as, ValueStack.pop, fromI32, fromI64,
      and_mask_31_idem, and_mask_63_idem]

/-- Signature (structural function type): ordered parameter types plus an
optional single return type; equality is structural. -/
structure Signature where
  params : List ValueType
  ret : Option ValueType
deriving DecidableEq, Repr

/-- Modelled from the spec: the `Error` enum (lib.rs is not under src/).
Spec section 7: validation-style errors (among them the `Function` error with
a human-readable reason) are distinct from traps. -/
inductive WasmiError where
  | Function (msg : String)
  | TrapErr (k : TrapKind)
  | Other (msg : String)
deriving DecidableEq, Repr

/-- Per-parameter check of check_function_args (runner.rs:1145): walk the
zipped parameter types and argument values, failing on the first argument
whose value type differs from the expected parameter type. -/
def check_param_types : List ValueType → List RuntimeValue → Except WasmiError Unit
  | _, [] => .ok ()
  | [], _ :: _ => .ok ()
  | expected_type :: ps, param_value :: vs =>
    if param_value.value_type ≠ expected_type then
      .error (.Function "invalid parameter type when expected another")
    else check_param_types ps vs

/-- check_function_args (runner.rs:1132): arity check, then per-value type
check; both failures are `Function` errors. -/
def check_function_args (signature : Signature) (args : List RuntimeValue) :
    Except WasmiError Unit :=
  if signature.params.length ≠ args.length then
    .error (.Function "not enough arguments")
  else check_param_types signature.params args

/-- C6: argument validation at the invoke boundary succeeds iff the argument
count equals the parameter count and each argument value type equals the
corresponding parameter type; every failure is a `Function` error, never a
trap. -/
theorem check_function_args_ok_iff (signature : Signature) (args : List RuntimeValue) :
    (check_function_args signature args = .ok () ↔
       List.Forall₂ (fun (v : RuntimeValue) (t : ValueType) => v.value_type = t)
         args signature.params) ∧
    (∀ e, check_function_args signature args = .error e → ∃ msg, e = .Function msg) := by
  constructor
  · rw [check_function_args]
    by_cases hlen : signature.params.length = args.length
    · rw [if_neg (by simp [hlen])]
      constructor
      · intro hok
        have : ∀ (ps : List ValueType) (vs : List RuntimeValue),
            ps.length = vs.length → check_param_types ps vs = .ok () →
            List.Forall₂ (fun (v : RuntimeValue) (t : ValueType) => v.value_type = t) vs ps := by
          intro ps
          induction ps with
          | nil =>
            intro vs hl _
            cases vs with
            | nil => exact .nil
            | cons v vs => simp at hl
          | cons p ps ih =>
            intro vs hl hok2
            cases vs with
            | nil => simp at hl
            | cons v vs =>
              rw [check_param_types] at hok2
              by_cases ht : v.value_type = p
              · exact .cons ht (ih vs (by simpa using hl) (by simpa [ht] using hok2))
              · simp [ht] at hok2
        exact this signature.params args hlen hok
      · intro hall
        have : ∀ (ps : List ValueType) (vs : List RuntimeValue),
            List.Forall₂ (fun (v : RuntimeValue) (t : ValueType) => v.value_type = t) vs ps →
            check_param_types ps vs = .ok () := by
          intro ps vs hf
          induction hf with
          | nil => rfl
          | cons h _ ih => simp [check_param_types, h, ih]
        exact this signature.params args hall
    · rw [if_pos (by simpa using hlen)]
      constructor
      · intro h; cases h
      · intro hall
        exact absurd (List.Forall₂.length_eq hall).symm hlen
  · intro e
    rw [check_function_args]
    by_cases hlen : signature.params.length = args.length
    · rw [if_neg (by simp [hlen])]
      intro herr
      have : ∀ (ps : List ValueType) (vs : List RuntimeValue),
          check_param_types ps vs = .error e → ∃ msg, e = .Function msg := by
        intro ps
        induction ps with
        | nil =>
          intro vs h
          cases vs with
          | nil => cases h
          | cons v vs => cases h
        | cons p ps ih =>
          intro vs h
          cases vs with
          | nil => cases h
          | cons v vs =>
            rw [check_param_types] at h
            by_cases ht : v.value_type = p
            · exact ih vs (by simpa [ht] using h)
            · refine ⟨"invalid parameter type when expected another", ?_⟩
              simp [ht] at h
              exact h.symm
      exact this signature.params args herr
    · rw [if_pos (by simpa using hlen)]
      intro herr
      refine ⟨"not enough arguments", ?_⟩
      cases herr
      rfl

/-- Closed witness for C6: a correct call and an arity mismatch. -/
theorem check_function_args_ok_iff_witness :
    check_function_args ⟨[ValueType.i32, ValueType.f64], some ValueType.i32⟩
      [RuntimeValue.I32 7, RuntimeValue.F64 0] = .ok () ∧
    ∃ msg, check_function_args ⟨[ValueType.i32], none⟩ [] = .error (.Function msg) := by
  constructor
  · exact (check_function_args_ok_iff ⟨[ValueType.i32, ValueType.f64], some ValueType.i32⟩
      [RuntimeValue.I32 7, RuntimeValue.F64 0]).1.mpr (.cons rfl (.cons rfl .nil))
  · have h := (check_function_args_ok_iff ⟨[ValueType.i32], none⟩ []).2
    have herr : check_function_args ⟨[ValueType.i32], none⟩ [] =
        .error (.Function "not enough arguments") := by rfl
    obtain ⟨msg, hmsg⟩ := h _ herr
    exact ⟨msg, by rw [herr, hmsg]⟩

/-- Function reference: for the purposes of indirect call dispatch a function
is identified by its signature plus an opaque identifier (FuncRef in the
source; func.rs is not under src/, the identifier stands for the instance). -/
structure FuncRef where
  ident : Nat
  signature : Signature
deriving DecidableEq, Repr

/-- Modelled from the spec: the module instance handle (spec sections 3 and
4.3) restricted to what `run_call_indirect` consumes — the default (index 0)
table of optional function references and the type-index to signature map. -/
structure ModuleInst where
  table : List (Option FuncRef)
  types : List Signature
deriving DecidableEq, Repr

/-- TableInstance::get: the slot at the index, or an error out of bounds. -/
def tableGet (t : List (Option FuncRef)) (idx : Nat) : Except Unit (Option FuncRef) :=
  if h : idx < t.length then .ok (t.get ⟨idx, h⟩) else .error ()

/-- Outcome of one instruction (InstructionOutcome in runner.rs). -/
inductive InstructionOutcome where
  | RunNextInstruction
  | Branch (t : Target)
  | ExecuteCall (f : FuncRef)
  | Return
deriving DecidableEq, Repr

/-- Interpreter::run_call_indirect (runner.rs:416): pop the i32 index, look
up the default table; out of bounds traps `TableAccessOutOfBounds`, an empty
slot traps `ElemUninitialized`, a signature differing from the type at
`signature_idx` traps `UnexpectedSignature`, otherwise the resolved function
is called. -/
def run_call_indirect (m : ModuleInst) (signature_idx : Nat) (s : ValueStack) :
    Except StepErr (InstructionOutcome × ValueStack) :=
  match s.pop_as fromI32 with
  | .error e => .error e
  | .ok (table_func_idx, s2) =>
    match tableGet m.table table_func_idx with
    | .error _ => .error (.trap .TableAccessOutOfBounds)
    | .ok none => .error (.trap .ElemUninitialized)
    | .ok (some func_ref) =>
      match m.types.get? signature_idx with
      | none => .error .expectFail
      | some required_function_type =>
        if required_function_type ≠ func_ref.signature then
          .error (.trap .UnexpectedSignature)
        else .ok (.ExecuteCall func_ref, s2)

/-- C5: `CallIndirect(sig)` pops an i32 index; it traps
`TableAccessOutOfBounds` outside the default table bounds,
`ElemUninitialized` on an empty slot, `UnexpectedSignature` when the resolved
signature differs from the module type at `sig`, and otherwise calls the
resolved function. -/
theorem call_indirect_cases (m : ModuleInst) (sig_idx idx : Nat)
    (rest : List RuntimeValue) (lim : Nat) (required : Signature)
    (htype : m.types.get? sig_idx = some required) :
    (m.table.length ≤ idx →
       run_call_indirect m sig_idx ⟨.I32 idx :: rest, lim⟩ =
         .error (.trap .TableAccessOutOfBounds)) ∧
    (∀ (h : idx < m.table.length), m.table.get ⟨idx, h⟩ = none →
       run_call_indirect m sig_idx ⟨.I32 idx :: rest, lim⟩ =
         .error (.trap .ElemUninitialized)) ∧
    (∀ (h : idx < m.table.length) (f : FuncRef), m.table.get ⟨idx, h⟩ = some f →
       f.signature ≠ required →
       run_call_indirect m sig_idx ⟨.I32 idx :: rest, lim⟩ =
         .error (.trap .UnexpectedSignature)) ∧
    (∀ (h : idx < m.table.length) (f : FuncRef), m.table.get ⟨idx, h⟩ = some f →
       f.signature = required →
       run_call_indirect m sig_idx ⟨.I32 idx :: rest, lim⟩ =
         .ok (.ExecuteCall f, ⟨rest, lim⟩)) := by
  refine ⟨?_, ?_, ?_, ?_⟩
  · intro hoob
    simp [run_call_indirect, ValueStack.pop_as, ValueStack.pop, fromI32, tableGet,
      Nat.not_lt.mpr hoob]
  · intro h hnone
    rw [List.get_eq_getElem] at hnone
    simp [run_call_indirect, ValueStack.pop_as, ValueStack.pop, fromI32, tableGet,
      h, hnone]
  · intro h f hsome hne
    rw [List.get_eq_getElem] at hsome
    rw [List.get?_eq_getElem?] at htype
    simp [run_call_indirect, ValueStack.pop_as, ValueStack.pop, fromI32, tableGet,
      h, hsome, htype, Ne.symm hne]
  · intro h f hsome heq
    rw [List.get_eq_getElem] at hsome
    rw [List.get?_eq_getElem?] at htype
    simp [run_call_indirect, ValueStack.pop_as, ValueStack.pop, fromI32, tableGet,
      h, hsome, htype, heq]

/-- Closed witness for C5: a two-slot table exercising the success case. -/
theorem call_indirect_cases_witness :
    run_call_indirect
      ⟨[none, some ⟨4, ⟨[ValueType.i32], none⟩⟩], [⟨[ValueType.i32], none⟩]⟩ 0
      ⟨[.I32 1, .I32 9], 6⟩ =
      .ok (.ExecuteCall ⟨4, ⟨[ValueType.i32], none⟩⟩, ⟨[.I32 9], 6⟩) := by
  have h := call_indirect_cases
    ⟨[none, some ⟨4, ⟨[ValueType.i32], none⟩⟩], [⟨[ValueType.i32], none⟩]⟩ 0 1
    [.I32 9] 6 ⟨[ValueType.i32], none⟩ (by rfl)
  exact h.2.2.2 (by decide) ⟨4, ⟨[ValueType.i32], none⟩⟩ (by rfl) (by rfl)

/-- Branch handling of do_run_function (runner.rs:134-149): set the position
to `dst_pc`; assert `keep ≤ 1`; pop one value to preserve iff `keep = 1`;
resize the stack down by `drop` (underflow of the subtraction is a panic
path, modelled as `expectFail`); push the preserved value back. -/
def branchStep (t : Target) (s : ValueStack) : Except StepErr (Nat × ValueStack) :=
  if 1 < t.keep then .error .expectFail
  else
    match (if t.keep = 1 then
             match s.pop with
             | .error e => .error e
             | .ok (v, s2) => .ok (some v, s2)
           else (.ok (none, s) : Except StepErr (Option RuntimeValue × ValueStack))) with
    | .error e => .error e
    | .ok (keepVal, s2) =>
      if t.drop ≤ s2.len then
        let s3 := s2.resize (s2.len - t.drop)
        match keepVal with
        | some v =>
          match s3.push v with
          | .error e => .error e
          | .ok s4 => .ok (t.dst_pc, s4)
        | none => .ok (t.dst_pc, s3)
      else .error .expectFail

/-- C3: taking a branch with target `(dst_pc, drop, keep)` sets the position
to `dst_pc`, pops and preserves exactly one value iff `keep = 1`, resizes the
value stack down to its length minus `drop`, and pushes the preserved value
(if any) back on top. -/
theorem branch_applies_target (t : Target) (s : ValueStack)
    (hkeep : t.keep ≤ 1) (hne : t.keep = 1 → s.vals ≠ [])
    (hdrop : t.drop + t.keep ≤ s.len) (hlim : s.len ≤ s.limit) :
    ∃ s_out : ValueStack,
      branchStep t s = .ok (t.dst_pc, s_out) ∧
      s_out.vals = (if t.keep = 1 then s.vals.take 1 ++ (s.vals.drop 1).drop t.drop
                    else s.vals.drop t.drop) ∧
      s_out.len = s.len - t.drop ∧
      s_out.limit = s.limit := by
  have hslen : s.len = s.vals.length := rfl
  rcases Nat.le_one_iff_eq_zero_or_eq_one.mp hkeep with h0 | h1
  · have hk : t.keep ≠ 1 := by omega
    have hk2 : ¬ 1 < t.keep := by omega
    have hd : t.drop ≤ s.len := by omega
    have harg : s.vals.length - (s.len - t.drop) = t.drop := by omega
    have hres : s.len - t.drop ≤ s.vals.length := by omega
    refine ⟨s.resize (s.len - t.drop), ?_, ?_, ?_, ?_⟩
    · simp [branchStep, hk, hk2, hd]
    · simp [hk, ValueStack.resize, hres, harg]
    · simp [ValueStack.resize, hres, ValueStack.len]
      omega
    · simp [ValueStack.resize, hres]
  · obtain ⟨v, rest, hvals⟩ : ∃ v rest, s.vals = v :: rest := by
      cases hs : s.vals with
      | nil => exact absurd hs (hne h1)
      | cons v rest => exact ⟨v, rest, rfl⟩
    have hrestlen : rest.length + 1 = s.len := by
      simp [ValueStack.len, hvals]
    have hk2 : ¬ 1 < t.keep := by omega
    have hd : t.drop ≤ rest.length := by omega
    have hres : rest.length - t.drop ≤ rest.length := by omega
    have harg : rest.length - (rest.length - t.drop) = t.drop := by omega
    have hpush : (rest.drop t.drop).length < s.limit := by
      simp only [List.length_drop]
      omega
    have hpush2 : rest.length - t.drop < s.limit := by omega
    refine ⟨⟨v :: rest.drop t.drop, s.limit⟩, ?_, ?_, ?_, ?_⟩
    · simp [branchStep, hk2, h1, ValueStack.pop, hvals, ValueStack.resize,
        ValueStack.len, hd, hres, harg, ValueStack.push, hpush, hpush2]
    · simp [h1, hvals]
    · simp only [ValueStack.len, List.length_cons, List.length_drop]
      omega
    · rfl

/-- Closed witness for C3: a branch with drop 2 and keep 1 on a five-value
stack. -/
theorem branch_applies_target_witness :
    ∃ s_out : ValueStack,
      branchStep ⟨7, 2, 1⟩ ⟨[.I32 40, .I32 41, .I32 42, .I32 43, .I32 44], 9⟩ =
        .ok (7, s_out) ∧
      s_out.vals = (if (1 : Nat) = 1 then
                      ([RuntimeValue.I32 40, .I32 41, .I32 42, .I32 43, .I32 44]).take 1 ++
                        (([RuntimeValue.I32 40, .I32 41, .I32 42, .I32 43, .I32 44]).drop 1).drop 2
                    else ([RuntimeValue.I32 40, .I32 41, .I32 42, .I32 43, .I32 44]).drop 2) ∧
      s_out.len = (⟨[.I32 40, .I32 41, .I32 42, .I32 43, .I32 44], 9⟩ : ValueStack).len - 2 ∧
      s_out.limit = 9 :=
  branch_applies_target ⟨7, 2, 1⟩ ⟨[.I32 40, .I32 41, .I32 42, .I32 43, .I32 44], 9⟩
    (by decide) (fun _ => by decide) (by decide) (by decide)

/-- Function execution context (FunctionContext in runner.rs) restricted to
the fields the verified paths read: the frame's return type (BlockType from
the signature), its locals, its value stack and the instruction position. -/
structure FunctionContext where
  return_type : Option ValueType
  locals : List RuntimeValue
  value_stack : ValueStack
  position : Nat
deriving DecidableEq, Repr

/-- Interpreter::run_return (runner.rs:400) as dispatched from
run_instruction (runner.rs:177): the `drop` and `keep` fields of the
`Return` instruction are destructured there but not passed on; run_return
only signals `InstructionOutcome::Return` and leaves the stack untouched. -/
def run_return_instr (_dk : DropKeep) (s : ValueStack) :
    Except StepErr (InstructionOutcome × ValueStack) :=
  .ok (.Return, s)

/-- Return path of do_run_function (runner.rs:154-167) for a frame whose
current instruction is `Return dk`: run the instruction, break out of the
loop on `InstructionOutcome::Return`, then pop the result value iff the
frame's return type declares one. -/
def executeReturn (dk : DropKeep) (ctx : FunctionContext) :
    Except StepErr (Option RuntimeValue × FunctionContext) :=
  match run_return_instr dk ctx.value_stack with
  | .error e => .error e
  | .ok (_, s) =>
    match ctx.return_type with
    | some _ =>
      match s.pop with
      | .error e => .error e
      | .ok (result, s2) => .ok (some result, { ctx with value_stack := s2 })
    | none => .ok (none, { ctx with value_stack := s })

/-- Return propagation in run_interpreter_loop (runner.rs:90-97): with a
caller frame the (optional) return value is pushed onto the caller's value
stack; with no caller it is handed to the embedder (`Sum.inl`). -/
def propagateReturn (return_value : Option RuntimeValue)
    (caller : Option FunctionContext) :
    Except StepErr (Sum (Option RuntimeValue) FunctionContext) :=
  match caller with
  | some caller_context =>
    match return_value with
    | some v =>
      match caller_context.value_stack.push v with
      | .error e => .error e
      | .ok s => .ok (.inr { caller_context with value_stack := s })
    | none => .ok (.inr caller_context)
  | none => .ok (.inl return_value)

/-- Modelled from the spec: the reading of `Return` asserted by C1 — the
frame's value stack is first collapsed by the carried DropKeep exactly as a
branch collapse works (pop one value iff keep is 1, drop `drop` values, push
the kept value back), and only then the single result is popped per the
return type.  Kept for comparison against `executeReturn`, which embeds the
source. -/
def executeReturnClaimed (dk : DropKeep) (ctx : FunctionContext) :
    Except StepErr (Option RuntimeValue × FunctionContext) :=
  match branchStep ⟨ctx.position, dk.drop, dk.keep⟩ ctx.value_stack with
  | .error e => .error e
  | .ok (_, s) =>
    match ctx.return_type with
    | some _ =>
      match s.pop with
      | .error e => .error e
      | .ok (result, s2) => .ok (some result, { ctx with value_stack := s2 })
    | none => .ok (none, { ctx with value_stack := s })

/-- C1 counterexample: on a frame holding three values with an i32 return
type and `Return` carrying drop 2, keep 1, the interpreter does not collapse
the stack by the DropKeep — it pops only the result and leaves the two
values below, whereas the claimed reading leaves none. -/
theorem return_drop_keep_counterexample :
    executeReturn ⟨2, 1⟩ ⟨some .i32, [], ⟨[.I32 2, .I32 1, .I32 0], 10⟩, 0⟩ =
      .ok (some (.I32 2), ⟨some .i32, [], ⟨[.I32 1, .I32 0], 10⟩, 0⟩) ∧
    executeReturnClaimed ⟨2, 1⟩ ⟨some .i32, [], ⟨[.I32 2, .I32 1, .I32 0], 10⟩, 0⟩ =
      .ok (some (.I32 2), ⟨some .i32, [], ⟨[], 10⟩, 0⟩) ∧
    executeReturn ⟨2, 1⟩
        (⟨some .i32, [], ⟨[.I32 2, .I32 1, .I32 0], 10⟩, 0⟩ : FunctionContext) ≠
      executeReturnClaimed ⟨2, 1⟩
        ⟨some .i32, [], ⟨[.I32 2, .I32 1, .I32 0], 10⟩, 0⟩ := by
  have hA : executeReturn ⟨2, 1⟩
      (⟨some .i32, [], ⟨[.I32 2, .I32 1, .I32 0], 10⟩, 0⟩ : FunctionContext) =
      .ok (some (.I32 2), ⟨some .i32, [], ⟨[.I32 1, .I32 0], 10⟩, 0⟩) := rfl
  have hB : executeReturnClaimed ⟨2, 1⟩
      (⟨some .i32, [], ⟨[.I32 2, .I32 1, .I32 0], 10⟩, 0⟩ : FunctionContext) =
      .ok (some (.I32 2), ⟨some .i32, [], ⟨[], 10⟩, 0⟩) := rfl
  refine ⟨hA, hB, ?_⟩
  rw [hA, hB]
  intro h
  simp at h

/-- C1 (amended): executing `Return` ignores the carried DropKeep — the
outcome is identical for every DropKeep and the frame's stack is not
collapsed; when the signature declares a return type the top value is popped
as the single result; the result (if any) is pushed onto the caller's value
stack when a caller frame exists and handed to the embedder otherwise. -/
theorem return_pops_result_ignoring_drop_keep :
    (∀ (dk1 dk2 : DropKeep) (ctx : FunctionContext),
       executeReturn dk1 ctx = executeReturn dk2 ctx) ∧
    (∀ (dk : DropKeep) (ctx : FunctionContext) (vt : ValueType)
       (v : RuntimeValue) (rest : List RuntimeValue),
       ctx.return_type = some vt → ctx.value_stack.vals = v :: rest →
       executeReturn dk ctx =
         .ok (some v, { ctx with value_stack := ⟨rest, ctx.value_stack.limit⟩ })) ∧
    (∀ (dk : DropKeep) (ctx : FunctionContext),
       ctx.return_type = none → executeReturn dk ctx = .ok (none, ctx)) ∧
    (∀ rv, propagateReturn rv none = .ok (.inl rv)) ∧
    (∀ (c : FunctionContext), propagateReturn none (some c) = .ok (.inr c)) ∧
    (∀ (v : RuntimeValue) (c : FunctionContext) (s2 : ValueStack),
       c.value_stack.push v = .ok s2 →
       propagateReturn (some v) (some c) = .ok (.inr { c with value_stack := s2 })) := by
  refine ⟨?_, ?_, ?_, ?_, ?_, ?_⟩
  · intro dk1 dk2 ctx
    rfl
  · intro dk ctx vt v rest hrt hvals
    simp [executeReturn, run_return_instr, hrt, ValueStack.pop, hvals]
  · intro dk ctx hrt
    obtain ⟨rt, l, vs, p⟩ := ctx
    simp only at hrt
    subst hrt
    rfl
  · intro rv
    rfl
  · intro c
    rfl
  · intro v c s2 hp
    simp [propagateReturn, hp]

/-- Closed witness for the amended C1 at a concrete frame and caller. -/
theorem return_pops_result_ignoring_drop_keep_witness :
    executeReturn ⟨3, 0⟩ ⟨some .i64, [], ⟨[.I64 8, .I32 5], 4⟩, 2⟩ =
      .ok (some (.I64 8),
        ({ (⟨some .i64, [], ⟨[.I64 8, .I32 5], 4⟩, 2⟩ : FunctionContext) with
           value_stack := ⟨[.I32 5], 4⟩ })) ∧
    propagateReturn (some (.I64 8)) (some ⟨none, [], ⟨[], 4⟩, 0⟩) =
      .ok (.inr ({ (⟨none, [], ⟨[], 4⟩, 0⟩ : FunctionContext) with
                   value_stack := ⟨[.I64 8], 4⟩ })) := by
  constructor
  · exact return_pops_result_ignoring_drop_keep.2.1 ⟨3, 0⟩
      ⟨some .i64, [], ⟨[.I64 8, .I32 5], 4⟩, 2⟩ .i64 (.I64 8) [.I32 5] rfl rfl
  · exact return_pops_result_ignoring_drop_keep.2.2.2.2.2 (.I64 8)
      ⟨none, [], ⟨[], 4⟩, 0⟩ ⟨[.I64 8], 4⟩ rfl

/-- Maximum number of entries in a value stack (runner.rs:23). -/
def DEFAULT_VALUE_STACK_LIMIT : Nat := 16384

/-- Argument popping loop of prepare_function_args (runner.rs:1122): one pop
per parameter, top of stack first. -/
def popArgs (s : ValueStack) : Nat → Except StepErr (List RuntimeValue × ValueStack)
  | 0 => .ok ([], s)
  | n + 1 =>
    match s.pop with
    | .error e => .error e
    | .ok (v, s2) =>
      match popArgs s2 n with
      | .error e => .error e
      | .ok (vs, s3) => .ok (v :: vs, s3)

/-- prepare_function_args (runner.rs:1118): pop one value per parameter off
the caller stack, reverse into argument order; the trailing
check_function_args is an `expect` (its failure is a panic path). -/
def prepare_function_args (signature : Signature) (caller_stack : ValueStack) :
    Except StepErr (List RuntimeValue × ValueStack) :=
  match popArgs caller_stack signature.params.length with
  | .error e => .error e
  | .ok (popped, s2) =>
    match check_function_args signature popped.reverse with
    | .error _ => .error .expectFail
    | .ok _ => .ok (popped.reverse, s2)

/-- FunctionContext::new (runner.rs:1026): fresh frame with the given value
stack limit, locals initialised from the call arguments. -/
def FunctionContext.new (signature : Signature) (value_stack_limit : Nat)
    (args : List RuntimeValue) : FunctionContext :=
  ⟨signature.ret, args, ValueStack.with_limit value_stack_limit, 0⟩

/-- start_execution (runner.rs:57): the outermost frame is created with
DEFAULT_VALUE_STACK_LIMIT. -/
def start_context (signature : Signature) (args : List RuntimeValue) : FunctionContext :=
  FunctionContext.new signature DEFAULT_VALUE_STACK_LIMIT args

/-- FunctionContext::nested (runner.rs:1042): pop the callee arguments off
the caller stack into the child locals, then create the child frame with
`limit = caller.limit - caller.len` measured after the pops.  Returns the
child together with the updated caller. -/
def FunctionContext.nested (caller : FunctionContext) (calleeSig : Signature) :
    Except StepErr (FunctionContext × FunctionContext) :=
  match prepare_function_args calleeSig caller.value_stack with
  | .error e => .error e
  | .ok (function_locals, caller_stack) =>
    .ok (⟨calleeSig.ret, function_locals,
          ValueStack.with_limit (caller_stack.limit - caller_stack.len), 0⟩,
         { caller with value_stack := caller_stack })

theorem pop_ok_facts (s : ValueStack) (v : RuntimeValue) (s2 : ValueStack)
    (h : s.pop = .ok (v, s2)) : s2.limit = s.limit ∧ s.vals = v :: s2.vals := by
  rw [ValueStack.pop] at h
  cases hv : s.vals with
  | nil => rw [hv] at h; cases h
  | cons a rest =>
    rw [hv] at h
    simp at h
    obtain ⟨h1, h2⟩ := h
    subst h1
    rw [← h2]
    exact ⟨rfl, rfl⟩

theorem popArgs_preserves_limit :
    ∀ (n : Nat) (s s2 : ValueStack) (vs : List RuntimeValue),
      popArgs s n = .ok (vs, s2) → s2.limit = s.limit := by
  intro n
  induction n with
  | zero =>
    intro s s2 vs h
    simp [popArgs] at h
    rw [← h.2]
  | succ k ih =>
    intro s s2 vs h
    rw [popArgs] at h
    split at h
    · cases h
    · next v s3 hp =>
      split at h
      · cases h
      · next ws s4 hq =>
        simp at h
        have h4 := ih s3 s4 ws hq
        have h3 := (pop_ok_facts s v s3 hp).1
        rw [← h.2, h4, h3]

/-- Chain condition linking the per-frame value stacks of one invocation,
outermost first: every frame holds at most its limit and each nested frame's
limit is its caller's limit minus the caller's held slots — the quantity
FunctionContext.nested assigns. -/
def StackChain : List ValueStack → Prop
  | [] => True
  | [s] => s.len ≤ s.limit
  | s :: s2 :: rest => s.len ≤ s.limit ∧ s2.limit = s.limit - s.len ∧ StackChain (s2 :: rest)

/-- C8: a nested call creates the child stack with limit equal to the
caller's limit minus the caller's current height; the outermost frame's
limit is DEFAULT_VALUE_STACK_LIMIT = 16384; and along any chain of frames
linked by the nested-limit rule the total of live value-stack slots is
bounded by the outermost limit. -/
theorem nested_limit_bounds :
    (∀ (caller : FunctionContext) (sig : Signature) (child caller2 : FunctionContext),
       caller.nested sig = .ok (child, caller2) →
       child.value_stack.limit =
         caller2.value_stack.limit - caller2.value_stack.len ∧
       caller2.value_stack.limit = caller.value_stack.limit ∧
       child.value_stack.len = 0) ∧
    (∀ (sig : Signature) (args : List RuntimeValue),
       (start_context sig args).value_stack.limit = DEFAULT_VALUE_STACK_LIMIT) ∧
    DEFAULT_VALUE_STACK_LIMIT = 16384 ∧
    (∀ (s : ValueStack) (rest : List ValueStack), StackChain (s :: rest) →
       ((s :: rest).map ValueStack.len).sum ≤ s.limit) := by
  refine ⟨?_, ?_, rfl, ?_⟩
  · intro caller sig child caller2 h
    rw [FunctionContext.nested] at h
    split at h
    · cases h
    · next locals cs hp =>
      simp at h
      have hlimit : cs.limit = caller.value_stack.limit := by
        rw [prepare_function_args] at hp
        split at hp
        · cases hp
        · next popped s2 hq =>
          split at hp
          · cases hp
          · simp at hp
            rw [← hp.2]
            exact popArgs_preserves_limit _ _ _ _ hq
      rw [← h.1, ← h.2]
      refine ⟨?_, hlimit, rfl⟩
      simp [ValueStack.with_limit, ValueStack.len, hlimit]
  · intro sig args
    rfl
  · intro s rest h
    induction rest generalizing s with
    | nil =>
      simp only [StackChain] at h
      simpa [ValueStack.len] using h
    | cons s2 rest2 ih =>
      simp only [StackChain] at h
      obtain ⟨h1, h2, h3⟩ := h
      have hb := ih s2 h3
      simp only [List.map_cons, List.sum_cons] at hb ⊢
      omega

/-- Closed witness for C8: a concrete nested call (one i32 argument popped
off a caller with limit 100 holding two values) and a concrete two-frame
chain. -/
theorem nested_limit_bounds_witness :
    FunctionContext.nested ⟨none, [], ⟨[.I32 1, .I32 2], 100⟩, 0⟩
        ⟨[.i32], some .i32⟩ =
      .ok (⟨some .i32, [.I32 1], ⟨[], 99⟩, 0⟩, ⟨none, [], ⟨[.I32 2], 100⟩, 0⟩) ∧
    (⟨some .i32, [.I32 1], ⟨[], 99⟩, 0⟩ : FunctionContext).value_stack.limit =
      (⟨none, [], ⟨[.I32 2], 100⟩, 0⟩ : FunctionContext).value_stack.limit -
        (⟨none, [], ⟨[.I32 2], 100⟩, 0⟩ : FunctionContext).value_stack.len ∧
    (([⟨[.I32 9], 16384⟩, ⟨[.I32 3, .I32 4], 16383⟩] :
        List ValueStack).map ValueStack.len).sum ≤ 16384 := by
  have hnest : FunctionContext.nested ⟨none, [], ⟨[.I32 1, .I32 2], 100⟩, 0⟩
      ⟨[.i32], some .i32⟩ =
      .ok (⟨some .i32, [.I32 1], ⟨[], 99⟩, 0⟩, ⟨none, [], ⟨[.I32 2], 100⟩, 0⟩) := rfl
  refine ⟨hnest, ?_, ?_⟩
  · exact (nested_limit_bounds.1 _ _ _ _ hnest).1
  · exact nested_limit_bounds.2.2.2 ⟨[.I32 9], 16384⟩ [⟨[.I32 3, .I32 4], 16383⟩]
      ⟨by decide, by decide, by
        show ValueStack.len ⟨[.I32 3, .I32 4], 16383⟩ ≤ 16383
        decide⟩

/-- Interpreter::run_relop (runner.rs:657): pop the operand pair, push
`I32(1)` if the relation holds and `I32(0)` otherwise. -/
def run_relop (fromVal : RuntimeValue → Option α) (f : α → α → Bool)
    (s : ValueStack) : Except StepErr ValueStack :=
  match s.pop_pair_as fromVal with
  | .error e => .error e
  | .ok ((left, right), s2) =>
    s2.push (if f left right then .I32 1 else .I32 0)

/-- Interpreter::run_eqz (runner.rs:675): pop one operand, push `I32(1)` iff
it equals the default value of its type. -/
def run_eqz [DecidableEq α] (fromVal : RuntimeValue → Option α) (defaultVal : α)
    (s : ValueStack) : Except StepErr ValueStack :=
  match s.pop_as fromVal with
  | .error e => .error e
  | .ok (v, s2) => s2.push (if v = defaultVal then .I32 1 else .I32 0)

/-- Modelled from the spec: IEEE-754 NaN test on a float bit pattern with
`expBits` exponent bits and `manBits` mantissa bits (nan_preserving_float.rs
and value.rs are not under src/; spec section 3 fixes float values to IEEE
bit patterns). -/
def floatIsNaN (expBits manBits b : Nat) : Bool :=
  (((b >>> manBits) &&& (2 ^ expBits - 1)) == 2 ^ expBits - 1) &&
    ((b &&& (2 ^ manBits - 1)) != 0)

/-- Modelled from the spec: the value of a non-NaN float bit pattern as an
integer scaled by the smallest positive subnormal, for order comparisons;
negative zero scales to the same integer 0 as positive zero. -/
def floatScaled (expBits manBits b : Nat) : Int :=
  let sign := (b >>> (expBits + manBits)) &&& 1
  let e := (b >>> manBits) &&& (2 ^ expBits - 1)
  let m := b &&& (2 ^ manBits - 1)
  let mag : Nat := if e = 0 then m else (m + 2 ^ manBits) * 2 ^ (e - 1)
  if sign == 1 then -(mag : Int) else (mag : Int)

/-- Modelled from the spec: IEEE-754 equality (false when either is NaN). -/
def floatEqB (eb mb a b : Nat) : Bool :=
  !floatIsNaN eb mb a && !floatIsNaN eb mb b &&
    (floatScaled eb mb a == floatScaled eb mb b)

/-- Modelled from the spec: IEEE-754 inequality (true when either is NaN). -/
def floatNeB (eb mb a b : Nat) : Bool := !floatEqB eb mb a b

/-- Modelled from the spec: IEEE-754 less-than (false when either is NaN). -/
def floatLtB (eb mb a b : Nat) : Bool :=
  !floatIsNaN eb mb a && !floatIsNaN eb mb b &&
    decide (floatScaled eb mb a < floatScaled eb mb b)

/-- Modelled from the spec: IEEE-754 greater-than. -/
def floatGtB (eb mb a b : Nat) : Bool := floatLtB eb mb b a

/-- Modelled from the spec: IEEE-754 less-or-equal (false when either is NaN). -/
def floatLeB (eb mb a b : Nat) : Bool :=
  !floatIsNaN eb mb a && !floatIsNaN eb mb b &&
    decide (floatScaled eb mb a ≤ floatScaled eb mb b)

/-- Modelled from the spec: IEEE-754 greater-or-equal. -/
def floatGeB (eb mb a b : Nat) : Bool := floatLeB eb mb b a

/-- The comparison instructions of the flat ISA (isa.rs): the integer
Eqz/Eq/Ne/Lt/Gt/Le/Ge variants in signed and unsigned form and the float
Eq/Ne/Lt/Gt/Le/Ge variants. -/
inductive CmpInstr where
  | I32Eqz | I32Eq | I32Ne | I32LtS | I32LtU | I32GtS | I32GtU
  | I32LeS | I32LeU | I32GeS | I32GeU
  | I64Eqz | I64Eq | I64Ne | I64LtS | I64LtU | I64GtS | I64GtU
  | I64LeS | I64LeU | I64GeS | I64GeU
  | F32Eq | F32Ne | F32Lt | F32Gt | F32Le | F32Ge
  | F64Eq | F64Ne | F64Lt | F64Gt | F64Le | F64Ge
deriving DecidableEq, Repr

/-- run_instruction dispatch for the comparison instructions
(runner.rs:224-260): each one runs run_eqz or run_relop at the
corresponding operand type and relation. -/
def runCmpInstr : CmpInstr → ValueStack → Except StepErr ValueStack
  | .I32Eqz => run_eqz fromI32 0
  | .I32Eq => run_relop fromI32 (fun a b => a == b)
  | .I32Ne => run_relop fromI32 (fun a b => a != b)
  | .I32LtS => run_relop fromI32 (fun a b => decide (toSigned32 a < toSigned32 b))
  | .I32LtU => run_relop fromI32 (fun a b => decide (a < b))
  | .I32GtS => run_relop fromI32 (fun a b => decide (toSigned32 b < toSigned32 a))
  | .I32GtU => run_relop fromI32 (fun a b => decide (b < a))
  | .I32LeS => run_relop fromI32 (fun a b => decide (toSigned32 a ≤ toSigned32 b))
  | .I32LeU => run_relop fromI32 (fun a b => decide (a ≤ b))
  | .I32GeS => run_relop fromI32 (fun a b => decide (toSigned32 b ≤ toSigned32 a))
  | .I32GeU => run_relop fromI32 (fun a b => decide (b ≤ a))
  | .I64Eqz => run_eqz fromI64 0
  | .I64Eq => run_relop fromI64 (fun a b => a == b)
  | .I64Ne => run_relop fromI64 (fun a b => a != b)
  | .I64LtS => run_relop fromI64 (fun a b => decide (toSigned64 a < toSigned64 b))
  | .I64LtU => run_relop fromI64 (fun a b => decide (a < b))
  | .I64GtS => run_relop fromI64 (fun a b => decide (toSigned64 b < toSigned64 a))
  | .I64GtU => run_relop fromI64 (fun a b => decide (b < a))
  | .I64LeS => run_relop fromI64 (fun a b => decide (toSigned64 a ≤ toSigned64 b))
  | .I64LeU => run_relop fromI64 (fun a b => decide (a ≤ b))
  | .I64GeS => run_relop fromI64 (fun a b => decide (toSigned64 b ≤ toSigned64 a))
  | .I64GeU => run_relop fromI64 (fun a b => decide (b ≤ a))
  | .F32Eq => run_relop fromF32 (floatEqB 8 23)
  | .F32Ne => run_relop fromF32 (floatNeB 8 23)
  | .F32Lt => run_relop fromF32 (floatLtB 8 23)
  | .F32Gt => run_relop fromF32 (floatGtB 8 23)
  | .F32Le => run_relop fromF32 (floatLeB 8 23)
  | .F32Ge => run_relop fromF32 (floatGeB 8 23)
  | .F64Eq => run_relop fromF64 (floatEqB 11 52)
  | .F64Ne => run_relop fromF64 (floatNeB 11 52)
  | .F64Lt => run_relop fromF64 (floatLtB 11 52)
  | .F64Gt => run_relop fromF64 (floatGtB 11 52)
  | .F64Le => run_relop fromF64 (floatLeB 11 52)
  | .F64Ge => run_relop fromF64 (floatGeB 11 52)

theorem push_ok_facts (s : ValueStack) (v : RuntimeValue) (s2 : ValueStack)
    (h : s.push v = .ok s2) : s2.vals = v :: s.vals ∧ s2.limit = s.limit := by
  rw [ValueStack.push] at h
  split at h
  · simp at h
    rw [← h]
    exact ⟨rfl, rfl⟩
  · cases h

theorem pop_as_ok_limit (fromVal : RuntimeValue → Option α) (s : ValueStack)
    (a : α) (s2 : ValueStack) (h : s.pop_as fromVal = .ok (a, s2)) :
    s2.limit = s.limit := by
  rw [ValueStack.pop_as] at h
  split at h
  · cases h
  · next v s3 hp =>
    split at h
    · cases h
    · simp at h
      rw [← h.2]
      exact (pop_ok_facts _ _ _ hp).1

theorem run_relop_ok_shape (fromVal : RuntimeValue → Option α) (f : α → α → Bool)
    (s s2 : ValueStack) (h : run_relop fromVal f s = .ok s2) :
    ∃ (left right : α) (s3 : ValueStack),
      s.pop_pair_as fromVal = .ok ((left, right), s3) ∧
      s2.vals = (if f left right then RuntimeValue.I32 1 else .I32 0) :: s3.vals ∧
      s2.limit = s.limit := by
  rw [run_relop] at h
  split at h
  · cases h
  · next left right s3 hp =>
    obtain ⟨hvals, hlim⟩ := push_ok_facts _ _ _ h
    have hlim2 : s3.limit = s.limit := by
      rw [ValueStack.pop_pair_as] at hp
      split at hp
      · cases hp
      · next r s4 hp1 =>
        split at hp
        · cases hp
        · next l s5 hp2 =>
          simp at hp
          rw [← hp.2]
          rw [pop_as_ok_limit _ _ _ _ hp2, pop_as_ok_limit _ _ _ _ hp1]
    exact ⟨left, right, s3, hp, hvals, by rw [hlim, hlim2]⟩

theorem run_eqz_ok_shape [inst : DecidableEq α] (fromVal : RuntimeValue → Option α)
    (defaultVal : α) (s s2 : ValueStack) (h : run_eqz fromVal defaultVal s = .ok s2) :
    ∃ (v : α) (s3 : ValueStack),
      s.pop_as fromVal = .ok (v, s3) ∧
      s2.vals = (if v = defaultVal then RuntimeValue.I32 1 else .I32 0) :: s3.vals ∧
      s2.limit = s.limit := by
  rw [run_eqz] at h
  split at h
  · cases h
  · next v s3 hp =>
    obtain ⟨hvals, hlim⟩ := push_ok_facts _ _ _ h
    exact ⟨v, s3, hp, hvals, by rw [hlim, pop_as_ok_limit _ _ _ _ hp]⟩

theorem run_relop_pushes_bool (fromVal : RuntimeValue → Option α) (f : α → α → Bool)
    (s s2 : ValueStack) (h : run_relop fromVal f s = .ok s2) :
    ∃ (b : Bool) (rest : List RuntimeValue),
      s2.vals = RuntimeValue.I32 (if b then 1 else 0) :: rest := by
  obtain ⟨l, r, s3, _, hvals, _⟩ := run_relop_ok_shape fromVal f s s2 h
  refine ⟨f l r, s3.vals, ?_⟩
  rw [hvals]
  cases f l r <;> rfl

theorem run_eqz_pushes_bool [inst : DecidableEq α] (fromVal : RuntimeValue → Option α)
    (defaultVal : α) (s s2 : ValueStack) (h : run_eqz fromVal defaultVal s = .ok s2) :
    ∃ (b : Bool) (rest : List RuntimeValue),
      s2.vals = RuntimeValue.I32 (if b then 1 else 0) :: rest := by
  obtain ⟨v, s3, _, hvals, _⟩ := run_eqz_ok_shape fromVal defaultVal s s2 h
  refine ⟨decide (v = defaultVal), s3.vals, ?_⟩
  rw [hvals]
  by_cases hv : v = defaultVal <;> simp [hv]

/-- C10: run_relop pushes exactly `I32(1)` when the relation holds and
`I32(0)` otherwise, run_eqz pushes exactly `I32(1)` when the operand is the
default and `I32(0)` otherwise, and consequently every comparison
instruction of the ISA leaves an `I32` of 0 or 1 on top of the stack —
never any other value or value type. -/
theorem comparisons_push_boolean_i32 :
    (∀ (α : Type) (fromVal : RuntimeValue → Option α) (f : α → α → Bool)
       (s s2 : ValueStack), run_relop fromVal f s = .ok s2 →
       ∃ (left right : α) (s3 : ValueStack),
         s.pop_pair_as fromVal = .ok ((left, right), s3) ∧
         s2.vals = (if f left right then RuntimeValue.I32 1 else .I32 0) :: s3.vals) ∧
    (∀ (α : Type) (inst : DecidableEq α) (fromVal : RuntimeValue → Option α)
       (defaultVal : α) (s s2 : ValueStack),
       run_eqz fromVal defaultVal s = .ok s2 →
       ∃ (v : α) (s3 : ValueStack),
         s.pop_as fromVal = .ok (v, s3) ∧
         s2.vals = (if v = defaultVal then RuntimeValue.I32 1 else .I32 0) :: s3.vals) ∧
    (∀ (i : CmpInstr) (s s2 : ValueStack), runCmpInstr i s = .ok s2 →
       ∃ (b : Bool) (rest : List RuntimeValue),
         s2.vals = RuntimeValue.I32 (if b then 1 else 0) :: rest) := by
  refine ⟨?_, ?_, ?_⟩
  · intro α fromVal f s s2 h
    obtain ⟨l, r, s3, hp, hvals, _⟩ := run_relop_ok_shape fromVal f s s2 h
    exact ⟨l, r, s3, hp, hvals⟩
  · intro α inst fromVal defaultVal s s2 h
    obtain ⟨v, s3, hp, hvals, _⟩ := run_eqz_ok_shape fromVal defaultVal s s2 h
    exact ⟨v, s3, hp, hvals⟩
  · intro i s s2 h
    cases i <;>
      first
      | exact run_relop_pushes_bool _ _ _ _ h
      | exact run_eqz_pushes_bool _ _ _ _ h

/-- Closed witness for C10: I32LtS on the pair (5, 3) pushes I32(0). -/
theorem comparisons_push_boolean_i32_witness :
    ∃ (b : Bool) (rest : List RuntimeValue),
      (⟨[.I32 0], 3⟩ : ValueStack).vals =
        RuntimeValue.I32 (if b then 1 else 0) :: rest := by
  have h : runCmpInstr .I32LtS ⟨[.I32 3, .I32 5], 3⟩ = .ok ⟨[.I32 0], 3⟩ := by rfl
  exact comparisons_push_boolean_i32.2.2 .I32LtS ⟨[.I32 3, .I32 5], 3⟩ ⟨[.I32 0], 3⟩ h

/-- Modelled from the spec: the structured source opcodes exercised by the
C4 scenario (the function-body compiler, validation/func.rs, is not under
src/; only its tests are). -/
inductive SrcOp where
  | loopOp (hasResult : Bool)
  | i32constOp (v : Int)
  | brIfOp (depth : Nat)
  | endOp
  | dropOp
deriving DecidableEq, Repr

/-- Flat ISA instructions emitted by the modelled compiler (isa.rs subset
restricted to the opcodes the C4 scenario produces). -/
inductive Instruction where
  | I32Const (v : Int)
  | Br (t : Target)
  | BrIfEqz (t : Target)
  | BrIfNez (t : Target)
  | DropOp
  | Return (dk : DropKeep)
deriving DecidableEq, Repr

/-- Modelled from the spec (section 4.1): a control frame of the
function-body compiler — its kind, whether its block type declares a result,
the operand-stack height at entry (the stack floor), and for a `loop` the
emitted PC of its header so back-edges resolve immediately. -/
structure ControlFrame where
  isLoop : Bool
  hasResult : Bool
  stack_floor : Nat
  headerPc : Nat
deriving DecidableEq, Repr

/-- Modelled from the spec (section 4.1, br rules): `keep = 1` iff the
target frame has a result and the frame is not a `loop`. -/
def branchKeep (fr : ControlFrame) : Nat :=
  if fr.hasResult && !fr.isLoop then 1 else 0

/-- Modelled from the spec (section 4.1, br rules): `drop` is the operand
height at the branch site minus the target frame's stack floor minus keep. -/
def branchDrop (height : Nat) (fr : ControlFrame) : Nat :=
  height - fr.stack_floor - branchKeep fr

/-- Modelled from the spec (section 4.1): the target emitted for a branch at
operand height `height` to a `loop` frame — a back-edge whose destination is
the recorded header PC. -/
def loopBranchTarget (height : Nat) (fr : ControlFrame) : Target :=
  ⟨fr.headerPc, branchDrop height fr, branchKeep fr⟩

/-- State of the modelled function-body compiler: emitted opcodes, control
frame stack (innermost first) and current operand height. -/
structure CompState where
  emitted : List Instruction
  ctrl : List ControlFrame
  height : Nat
deriving DecidableEq, Repr

/-- Modelled from the spec (section 4.1): one compilation step over the
restricted opcode set.  Forward-branch fixups are not modelled: a `br_if`
must target a `loop` frame, whose destination is known immediately; its
DropKeep is computed from the operand height at the branch site (the i32
condition is consumed afterwards), matching the emitted code asserted by
validation/tests.rs (empty_loop). -/
def compileStep (st : CompState) : SrcOp → Option CompState
  | .loopOp r =>
    some ⟨st.emitted, ⟨true, r, st.height, st.emitted.length⟩ :: st.ctrl, st.height⟩
  | .i32constOp v =>
    some ⟨st.emitted ++ [.I32Const v], st.ctrl, st.height + 1⟩
  | .brIfOp depth =>
    match st.ctrl.get? depth with
    | none => none
    | some fr =>
      if fr.isLoop then
        some ⟨st.emitted ++ [.BrIfNez (loopBranchTarget st.height fr)], st.ctrl,
              st.height - 1⟩
      else none
  | .endOp =>
    match st.ctrl with
    | [] => none
    | fr :: rest =>
      some ⟨st.emitted, rest, fr.stack_floor + (if fr.hasResult then 1 else 0)⟩
  | .dropOp =>
    some ⟨st.emitted ++ [.DropOp], st.ctrl, st.height - 1⟩

/-- Modelled from the spec: fold of compileStep over a source body. -/
def compileOps (st : CompState) : List SrcOp → Option CompState
  | [] => some st
  | op :: ops =>
    match compileStep st op with
    | none => none
    | some st2 => compileOps st2 ops

/-- Modelled from the spec (section 4.1, function end): compile a function
body of result arity `retArity`, appending the final `Return` whose keep is
the arity and whose drop is the remaining operand height minus keep. -/
def compileFunc (retArity : Nat) (ops : List SrcOp) : Option (List Instruction) :=
  match compileOps ⟨[], [], 0⟩ ops with
  | none => none
  | some st => some (st.emitted ++ [.Return ⟨st.height - retArity, retArity⟩])

/-- C4: a branch lowered against a `loop` target frame keeps nothing even
when the loop declares a result, jumps to the loop header, and drops the
operand height above the frame's stack floor; concretely the body
`loop (result i32) i32.const 1; br_if 0; i32.const 2; end; drop` compiles so
the BrIfNez targets pc 0 with drop 1 and keep 0 (None). -/
theorem loop_branch_discards_result (fr : ControlFrame) (height : Nat)
    (hl : fr.isLoop = true) :
    (branchKeep fr = 0 ∧
     branchDrop height fr = height - fr.stack_floor ∧
     loopBranchTarget height fr = ⟨fr.headerPc, height - fr.stack_floor, 0⟩) ∧
    compileFunc 0
        [.loopOp true, .i32constOp 1, .brIfOp 0, .i32constOp 2, .endOp, .dropOp] =
      some [.I32Const 1, .BrIfNez ⟨0, 1, 0⟩, .I32Const 2, .DropOp, .Return ⟨0, 0⟩] := by
  have hk : branchKeep fr = 0 := by simp [branchKeep, hl]
  refine ⟨⟨hk, ?_, ?_⟩, rfl⟩
  · rw [branchDrop, hk, Nat.sub_zero]
  · rw [loopBranchTarget, branchDrop, hk, Nat.sub_zero]

/-- Closed witness for C4 at the loop frame of the empty_loop scenario
(result-declaring loop, floor 0, header 0) and branch height 1. -/
theorem loop_branch_discards_result_witness :
    (branchKeep ⟨true, true, 0, 0⟩ = 0 ∧
     branchDrop 1 ⟨true, true, 0, 0⟩ = 1 - 0 ∧
     loopBranchTarget 1 ⟨true, true, 0, 0⟩ = ⟨0, 1 - 0, 0⟩) ∧
    compileFunc 0
        [.loopOp true, .i32constOp 1, .brIfOp 0, .i32constOp 2, .endOp, .dropOp] =
      some [.I32Const 1, .BrIfNez ⟨0, 1, 0⟩, .I32Const 2, .DropOp, .Return ⟨0, 0⟩] :=
  loop_branch_discards_result ⟨true, true, 0, 0⟩ 1 rfl

end Wasmi
